import Mathlib

/-!
Verification development for the mediaflow-proxy repository.

This file gives a shallow embedding of the two core source files:
  * `mediaflow_proxy/extractors/vixcloud.py` (the `VixCloudExtractor` class), and
  * `mediaflow_proxy/routes/proxy.py` (the `/stream` and `/hls/segment.m4s` endpoints),
and proves properties of the embedded definitions.

Modelling conventions:
  * Python `str` values are Lean `String`s; character-level helpers work on
    `List Char` (`String.data`).  Byte-level aspects of `urllib` percent
    decoding (multi-byte UTF-8 escapes) are modelled per code unit, which is
    exact for ASCII data.
  * Python exceptions are modelled by `Except ExtractErr`; `ExtractErr`
    distinguishes the typed `ExtractorError` raised by the repository from the
    untyped built-in exceptions (`AttributeError`, `TypeError`, `IndexError`)
    that escape from the source.
  * HTML parsing through BeautifulSoup/lxml is modelled abstractly by `Doc`,
    which exposes exactly the queries the source performs: the `data-page`
    attribute of `div#app` (with its JSON payload already structured), the
    `src` of the first `iframe`, and the text of the first `script` under
    `body`.  `json.loads` results are the abstract `Json` values.
  * The network is modelled by `Net`, recording the response the upstream
    site gives to each of the three fetches `extract` performs.  Request
    headers sent upstream do not influence the modelled responses.
  * The mutable `self.base_headers` dict of the extractor is modelled by
    explicit state passing (`ExtractorState`); the fact that the source
    returns the shared dict itself (not a copy) is modelled by `HeaderRef`,
    a reference that is read through the current state via `readHeaders`.
-/

/-- The apostrophe character, written via its code point. -/
def squote : Char := Char.ofNat 39

/-- One-character apostrophe string. -/
def apos : String := String.mk [squote]

/-- Index of the first occurrence of `sep` in `s` (as `List.isPrefixOf` of a
suffix), `none` if `sep` never occurs.  This is the search underlying Python's
`str.split` and `str.find`. -/
def findSub (sep : List Char) : List Char → Option Nat
  | [] => if sep.isPrefixOf ([] : List Char) then some 0 else none
  | c :: t =>
    if sep.isPrefixOf (c :: t) then some 0
    else (findSub sep t).map (· + 1)

/-- Fuel-driven worker for `pySplitCh`.  The fuel is only a termination
device; `pySplitCh` always supplies enough. -/
def splitGo : Nat → List Char → List Char → List (List Char)
  | 0, _, s => [s]
  | fuel + 1, sep, s =>
    match findSub sep s with
    | none => [s]
    | some i =>
      if sep.isEmpty then [s]
      else s.take i :: splitGo fuel sep (s.drop (i + sep.length))

/-- Python `str.split(sep)` on character lists (for a nonempty separator, as
in every call site of the source). -/
def pySplitCh (sep s : List Char) : List (List Char) :=
  splitGo (s.length + 1) sep s

/-- Python `str.split(sep)` on strings. -/
def pySplit (sep s : String) : List String :=
  (pySplitCh sep.data s.data).map (fun l => String.mk l)

/-- Python `str.split(sep, 1)`: split at the first occurrence only. -/
def pySplitOnce (sep s : String) : List String :=
  match findSub sep.data s.data with
  | none => [s]
  | some i => [String.mk (s.data.take i), String.mk (s.data.drop (i + sep.data.length))]

/-- Errors with which the embedded Python code can terminate.  Only
`extractorError` corresponds to the typed `ExtractorError` of the repository;
the others are untyped built-in exceptions escaping from the source. -/
inductive ExtractErr where
  | extractorError (msg : String)
  | attributeError (msg : String)
  | typeError (msg : String)
  | indexError (msg : String)
  deriving DecidableEq, Repr

/-- Whether an error is the repository's typed `ExtractorError`. -/
def ExtractErr.isTyped : ExtractErr → Bool
  | .extractorError _ => true
  | _ => false

/-- Python list subscription `xs[i]`: `IndexError` when out of range. -/
def pyIndex {α : Type} (xs : List α) (i : Nat) : Except ExtractErr α :=
  match xs[i]? with
  | some v => .ok v
  | none => .error (.indexError "list index out of range")

/-- The `query` component produced by `urllib.parse.urlparse`: the part after
the first `?`, with the fragment (everything from the first `#`) removed
first, exactly as in `urlsplit`. -/
def urlQuery (u : String) : String :=
  let nofrag := match findSub ['#'] u.data with
    | none => u.data
    | some i => u.data.take i
  match findSub ['?'] nofrag with
  | none => ""
  | some i => String.mk (nofrag.drop (i + 1))

/-- Value of a hexadecimal digit, for percent decoding. -/
def hexVal (c : Char) : Option Nat :=
  if '0' ≤ c ∧ c ≤ '9' then some (c.toNat - '0'.toNat)
  else if 'a' ≤ c ∧ c ≤ 'f' then some (c.toNat - 'a'.toNat + 10)
  else if 'A' ≤ c ∧ c ≤ 'F' then some (c.toNat - 'A'.toNat + 10)
  else none

/-- Python `urllib.parse.unquote` on character lists: decode `%XX` escapes,
leaving invalid escapes untouched.  Multi-byte UTF-8 escapes are decoded per
code unit (exact for ASCII). -/
def pyUnquoteCh : List Char → List Char
  | [] => []
  | '%' :: a :: b :: rest =>
    match hexVal a, hexVal b with
    | some hi, some lo => Char.ofNat (16 * hi + lo) :: pyUnquoteCh rest
    | _, _ => '%' :: pyUnquoteCh (a :: b :: rest)
  | c :: rest => c :: pyUnquoteCh rest

/-- Python `urllib.parse.unquote`. -/
def pyUnquote (s : String) : String :=
  String.mk (pyUnquoteCh s.data)

/-- Python `urllib.parse.unquote_plus`: `+` becomes a space, then unquote. -/
def pyUnquotePlus (s : String) : String :=
  String.mk (pyUnquoteCh (s.data.map (fun c => if c = '+' then ' ' else c)))

/-- Python `urllib.parse.parse_qsl(qs)` with default arguments: split on `&`,
skip empty fields, skip fields without `=`, skip fields with an empty value
(`keep_blank_values` is false), and unquote names and values. -/
def parse_qsl (qs : String) : List (String × String) :=
  (pySplit "&" qs).foldr
    (fun nv acc =>
      if nv = "" then acc
      else
        match pySplitOnce "=" nv with
        | [n, v] => if v = "" then acc else (pyUnquotePlus n, pyUnquotePlus v) :: acc
        | _ => acc)
    []

/-- Insert one parsed pair into the `parse_qs` dictionary-of-lists. -/
def qsAdd (d : List (String × List String)) (k v : String) : List (String × List String) :=
  if d.any (fun p => p.1 == k) then
    d.map (fun p => if p.1 == k then (p.1, p.2 ++ [v]) else p)
  else d ++ [(k, [v])]

/-- Python `urllib.parse.parse_qs(qs)`: group the `parse_qsl` pairs by key. -/
def parse_qs (qs : String) : List (String × List String) :=
  (parse_qsl qs).foldl (fun d p => qsAdd d p.1 p.2) []

/-- Python `key in parse_qs(...)`: dictionary key membership. -/
def qsHasKey (d : List (String × List String)) (k : String) : Bool :=
  d.any (fun p => p.1 == k)

/-- Whether `needle` occurs as a contiguous substring of `hay`. -/
def containsSub (needle : List Char) : List Char → Bool
  | [] => needle.isEmpty
  | c :: t => needle.isPrefixOf (c :: t) || containsSub needle t

/-- Python `str.lower()` on header names (ASCII model). -/
def pyLowerStr (s : String) : String :=
  String.mk (s.data.map Char.toLower)

/-- Python dict assignment `d[k] = v` on an association list that models an
insertion-ordered dict: update in place when the key exists, append
otherwise. -/
def pyDictSet (d : List (String × String)) (k v : String) : List (String × String) :=
  if d.any (fun p => p.1 == k) then
    d.map (fun p => if p.1 == k then (k, v) else p)
  else d ++ [(k, v)]

/-- Word character, for the `\w` class of `re` (ASCII model; the matched
token values are ASCII). -/
def isWordCh (c : Char) : Bool :=
  c.isAlpha || c.isDigit || c = '_'

/-- Digit character, for the `\d` class of `re` (ASCII model). -/
def isDigitCh (c : Char) : Bool :=
  c.isDigit

/-- Whitespace character, for the `\s` class of `re` (ASCII model). -/
def isSpaceCh (c : Char) : Bool :=
  c = ' ' || c = '\t' || c = '\n' || c = '\r' || c = '\x0b' || c = '\x0c'

/-- Match, at the start of `s`, the pattern `label` `\s*` `'` `C+` `'` where
`C` is the class decided by `ok` — the shape of the regular expressions
`'token':\s*'(\w+)'` and `'expires':\s*'(\d+)'` of the source.  Returns the
captured group.  Because an apostrophe is neither whitespace nor in `C`, the
greedy `\s*` and `C+` of the Python engine are equivalent to maximal munch,
which is what this function implements. -/
def matchPatAt (label : List Char) (ok : Char → Bool) (s : List Char) : Option (List Char) :=
  if label.isPrefixOf s then
    match (s.drop label.length).dropWhile isSpaceCh with
    | c :: r2 =>
      if c = squote then
        let tok := r2.takeWhile ok
        match r2.drop tok.length with
        | d :: _ => if tok ≠ [] ∧ d = squote then some tok else none
        | [] => none
      else none
    | [] => none
  else none

/-- `re.search` for the patterns of `matchPatAt`: try each start position from
the left, returning the first match's captured group. -/
def searchPat (label : List Char) (ok : Char → Bool) : List Char → Option (List Char)
  | [] => matchPatAt label ok []
  | c :: t =>
    match matchPatAt label ok (c :: t) with
    | some r => some r
    | none => searchPat label ok t

/-- The literal part `'token':` of the token pattern. -/
def tokenLabel : List Char :=
  squote :: "token".data ++ [squote, ':']

/-- The literal part `'expires':` of the expires pattern. -/
def expiresLabel : List Char :=
  squote :: "expires".data ++ [squote, ':']

/-- `re.search(r"'token':\s*'(\w+)'", script)`, returning the captured group. -/
def searchToken (script : String) : Option String :=
  (searchPat tokenLabel isWordCh script.data).map (fun l => String.mk l)

/-- `re.search(r"'expires':\s*'(\d+)'", script)`, returning the captured group. -/
def searchExpires (script : String) : Option String :=
  (searchPat expiresLabel isDigitCh script.data).map (fun l => String.mk l)

/-- Abstract JSON values, the result of `json.loads` on the `data-page`
attribute. -/
inductive Json where
  | str (s : String)
  | num (n : Int)
  | jbool (b : Bool)
  | null
  | arr (elems : List Json)
  | obj (fields : List (String × Json))

/-- The `data-page` attribute payload: either malformed JSON (raising
`json.JSONDecodeError` in the source) or a parsed value. -/
inductive DataPage where
  | malformedJson
  | parsed (j : Json)

/-- Abstract document model of an HTML response body, exposing exactly the
queries the source performs with BeautifulSoup.
  * `app_div`: `none` if there is no `div` with id `app` (the strained soup is
    falsy); `some none` if the div exists but has no `data-page` attribute;
    `some (some p)` gives the attribute payload.
  * `iframe`: `none` if `soup.find("iframe")` is `None`; `some none` if the
    iframe has no `src` attribute; `some (some src)` otherwise.
  * `body_script`: `none` if there is no `body` (strained soup falsy);
    `some none` if the body has no `script`; `some (some text)` gives the
    first script's text. -/
structure Doc where
  app_div : Option (Option DataPage) := none
  iframe : Option (Option String) := none
  body_script : Option (Option String) := none

/-- An upstream HTTP response as seen by the extractor: a status code and the
parsed body. -/
structure HttpResp where
  status_code : Nat
  doc : Doc

/-- The network environment of one `extract` run: the response to the
bootstrap fetch (as a function of the bootstrap URL), the response to the
page fetch of the given page URL, and the response to the embed fetch (as a
function of the iframe URL). -/
structure Net where
  bootstrap : String → HttpResp
  page : HttpResp
  embed : String → HttpResp

/-- The extractor instance state: the shared mutable `base_headers` dict and
the `mediaflow_endpoint` tag inherited from `BaseExtractor`. -/
structure ExtractorState where
  base_headers : List (String × String)
  mediaflow_endpoint : String

/-- A reference to a header dict owned by the extractor.  The source returns
`self.base_headers` itself, so the only reference is to that shared dict; its
contents are read through the current state by `readHeaders`. -/
inductive HeaderRef where
  | base_headers_ref
  deriving DecidableEq

/-- Dereference a header-map reference in a given extractor state. -/
def readHeaders : HeaderRef → ExtractorState → List (String × String)
  | .base_headers_ref, st => st.base_headers

/-- The dictionary returned by a successful `extract` call. -/
structure ResolvedMedia where
  destination_url : String
  request_headers : HeaderRef
  mediaflow_endpoint : String

/-- The bootstrap URL built by `version`. -/
def bootstrapUrl (domain : String) : String :=
  "https://streamingcommunity." ++ domain ++ "/richiedi-un-titolo"

/-- Embedding of `VixCloudExtractor.version`: fetch the bootstrap page for
the domain, require status 200, then read the `version` field of the JSON in
the `data-page` attribute of `div#app`.  `.ok none` models the implicit
`None` return when the strained soup is falsy. -/
def version (net : Net) (domain : String) : Except ExtractErr (Option Json) :=
  let resp := net.bootstrap (bootstrapUrl domain)
  if resp.status_code ≠ 200 then .error (.extractorError "Outdated Domain")
  else
    match resp.doc.app_div with
    | none => .ok none
    | some none => .error (.typeError "the JSON object must be str, not NoneType")
    | some (some .malformedJson) =>
      .error (.extractorError "Failed to parse version: JSONDecodeError")
    | some (some (.parsed (.obj fields))) =>
      match fields.lookup "version" with
      | some v => .ok (some v)
      | none => .error (.extractorError "Failed to parse version: KeyError")
    | some (some (.parsed _)) => .error (.typeError "value is not subscriptable by str")

/-- The domain derivation of `extract`:
`url.split("://")[1].split("/")[0].split(".")[1]`. -/
def deriveDomain (url : String) : Except ExtractErr String := do
  let s1 ← pyIndex (pySplit "://" url) 1
  let host ← pyIndex (pySplit "/" s1) 0
  pyIndex (pySplit "." host) 1

/-- The iframe-source step of `extract`:
`soup.find("iframe").get("src")` followed by `urlparse(iframe)`.  When no
iframe exists, `.get` is called on `None` (`AttributeError`); when the iframe
has no `src` attribute, `urlparse` receives `None` (untyped error). -/
def getIframeSrc (resp : HttpResp) : Except ExtractErr String :=
  match resp.doc.iframe with
  | none => .error (.attributeError "NoneType object has no attribute get")
  | some none => .error (.typeError "urlparse argument is None")
  | some (some src) => .ok src

/-- The embed-response status check of `extract`. -/
def checkEmbedStatus (resp : HttpResp) : Except ExtractErr Unit :=
  if resp.status_code ≠ 200 then
    .error (.extractorError "Failed to extract URL components, Invalid Request")
  else .ok ()

/-- `.group(1)` on the result of `re.search`: `AttributeError` when the
search returned `None`. -/
def reGroup (m : Option String) : Except ExtractErr String :=
  match m with
  | none => .error (.attributeError "NoneType object has no attribute group")
  | some t => .ok t

/-- The final URL composition of `extract`: the playlist URL with `token` and
`expires`, then `&h=1` when `canPlayFHD` is a key of the parsed query
parameters, then `&b=1` when `b` is. -/
def mkFinalUrl (base_url vixid token expires : String)
    (query_params : List (String × List String)) : String :=
  let f0 := "https://" ++ base_url ++ "/playlist/" ++ vixid ++ ".m3u8?token=" ++ token
    ++ "&expires=" ++ expires
  let f1 := if qsHasKey query_params "canPlayFHD" then f0 ++ "&h=1" else f0
  if qsHasKey query_params "b" then f1 ++ "&b=1" else f1

/-- Embedding of `VixCloudExtractor.extract`.  The steps, in source order:
derive the domain, negotiate the version, fetch the page and take the first
iframe's `src`, parse its query string, fetch the embed URL requiring status
200, read the first body script, extract `token` and `expires` with the two
regular expressions, derive the media id and host from the iframe URL, build
the final URL, mutate `self.base_headers["referer"]`, and return the result
dict holding a reference to the shared header dict.  `.ok (st, none)` models
the implicit `None` return when the body-strained soup is falsy. -/
def extract (st : ExtractorState) (url : String) (net : Net) :
    Except ExtractErr (ExtractorState × Option ResolvedMedia) := do
  let domain ← deriveDomain url
  let _ver ← version net domain
  let iframe ← getIframeSrc net.page
  let query_params := parse_qs (urlQuery iframe)
  let _u ← checkEmbedStatus (net.embed iframe)
  match (net.embed iframe).doc.body_script with
  | none => return (st, none)
  | some none => throw (.attributeError "NoneType object has no attribute text")
  | some (some script) => do
    let token ← reGroup (searchToken script)
    let expires ← reGroup (searchExpires script)
    let seg ← pyIndex (pySplit "/embed/" iframe) 1
    let vixid ← pyIndex (pySplit "?" seg) 0
    let s2 ← pyIndex (pySplit "://" iframe) 1
    let base_url ← pyIndex (pySplit "/" s2) 0
    return ({ st with base_headers := pyDictSet st.base_headers "referer" url },
      some
        { destination_url := mkFinalUrl base_url vixid token expires query_params,
          request_headers := .base_headers_ref,
          mediaflow_endpoint := st.mediaflow_endpoint })

/-- A client request as seen by the route layer: method and the full original
header dict. -/
structure ClientRequest where
  method : String
  headers : List (String × String)

/-- An upstream response during a relay: status, headers, and the raw body
chunks produced by `aiter_raw`. -/
structure UpstreamResp where
  status_code : Nat
  headers : List (String × String)
  chunks : List String

/-- The request the relay sends upstream via `client.stream`. -/
structure UpstreamReq where
  method : String
  url : String
  headers : List (String × String)

/-- The client-visible outcome of a relay endpoint.  `httpError` models a
raised `HTTPException`: it is produced before any body chunk is read, so it
carries no body.  `streamed` models the `StreamingResponse` passing the
upstream chunks through unchanged. -/
inductive RelayOutcome where
  | httpError (status_code : Nat) (detail : String)
  | streamed (status_code : Nat) (headers : List (String × String)) (chunks : List String)
  deriving DecidableEq

/-- Drop the `Transfer-Encoding` header (case-insensitively), as both
relay endpoints do when building the `StreamingResponse`. -/
def stripTransferEncoding (hs : List (String × String)) : List (String × String) :=
  hs.filter (fun kv => pyLowerStr kv.1 ≠ "transfer-encoding")

/-- Embedding of `proxy_stream_endpoint` (`/stream`): forward the client's
method and headers to the target URL; on upstream status 400, 404 or 416
raise an `HTTPException` with that status before reading any body; otherwise
stream the body through with the upstream status and the headers minus
`Transfer-Encoding`.  Returns the upstream request made and the outcome. -/
def proxy_stream_endpoint (request : ClientRequest) (url : String)
    (upstream : UpstreamResp) : UpstreamReq × RelayOutcome :=
  let headers := request.headers
  (⟨request.method, url, headers⟩,
   if upstream.status_code = 400 ∨ upstream.status_code = 404 ∨ upstream.status_code = 416 then
     .httpError upstream.status_code
       ("Errore dal server upstream: " ++ toString upstream.status_code)
   else
     .streamed upstream.status_code (stripTransferEncoding upstream.headers) upstream.chunks)

/-- Embedding of `segment_endpoint` (`/hls/segment.m4s`): percent-decode the
`segment_url` parameter, forward the client's method and headers to the
decoded URL; on upstream status 404 raise an `HTTPException 404`; otherwise
stream the body through with the upstream status and the headers minus
`Transfer-Encoding`.  The Accept-Ranges check exists in the source only as
commented-out code and is therefore not part of the embedding. -/
def segment_endpoint (request : ClientRequest) (segment_url : String)
    (upstream : UpstreamResp) : UpstreamReq × RelayOutcome :=
  let decoded_url := pyUnquote segment_url
  let headers := request.headers
  (⟨request.method, decoded_url, headers⟩,
   if upstream.status_code = 404 then
     .httpError 404 ("Segmento non trovato: " ++ decoded_url)
   else
     .streamed upstream.status_code (stripTransferEncoding upstream.headers) upstream.chunks)

/-! Concrete scenarios used by the closed theorems and witnesses below. -/

/-- A fresh extractor state, as built by `BaseExtractor.__init__`. -/
def st0 : ExtractorState :=
  { base_headers := [("user-agent", "Mozilla/5.0")], mediaflow_endpoint := "proxy_stream_endpoint" }

/-- The page URL of the worked example. -/
def url0 : String := "https://streamingcommunity.to/watch/123"

/-- A second page URL on the same site. -/
def urlB : String := "https://streamingcommunity.to/watch/456"

/-- The iframe URL of the worked example, with `canPlayFHD=1`. -/
def iframe1 : String := "https://vx.example/embed/999?canPlayFHD=1"

/-- An iframe URL whose query string contains the key `canPlayFHD` with no
value. -/
def iframe2 : String := "https://vx.example/embed/999?canPlayFHD"

/-- The embed-page script text of the worked example, containing the token
and expires fragments. -/
def script1 : String :=
  "window.masterPlaylist = params: " ++ apos ++ "token" ++ apos ++ ": " ++ apos ++ "TOK"
    ++ apos ++ ", " ++ apos ++ "expires" ++ apos ++ ": " ++ apos ++ "1700000000" ++ apos ++ ","

/-- The bootstrap response embedding the JSON `version` field `42`. -/
def bootstrapResp1 : HttpResp :=
  { status_code := 200,
    doc := { app_div := some (some (.parsed (.obj [("version", .str "42")]))) } }

/-- The network of the worked example. -/
def net1 : Net :=
  { bootstrap := fun _ => bootstrapResp1,
    page := { status_code := 200, doc := { iframe := some (some iframe1) } },
    embed := fun _ => { status_code := 200, doc := { body_script := some (some script1) } } }

/-- The worked example with the value-less `canPlayFHD` iframe. -/
def net2 : Net :=
  { net1 with page := { status_code := 200, doc := { iframe := some (some iframe2) } } }

/-- The worked example with an embed script matching neither pattern. -/
def net7 : Net :=
  { net1 with
    embed := fun _ => { status_code := 200, doc := { body_script := some (some "no secrets here") } } }

/-- The worked example with a page containing no iframe. -/
def net10 : Net :=
  { net1 with page := { status_code := 200, doc := {} } }

/-- The extractor state after extracting `url0` from `st0`. -/
def st1res : ExtractorState :=
  { base_headers := [("user-agent", "Mozilla/5.0"), ("referer", url0)],
    mediaflow_endpoint := "proxy_stream_endpoint" }

/-- The extractor state after further extracting `urlB`. -/
def st2res : ExtractorState :=
  { base_headers := [("user-agent", "Mozilla/5.0"), ("referer", urlB)],
    mediaflow_endpoint := "proxy_stream_endpoint" }

/-- The resolved media of the worked example. -/
def rr1 : ResolvedMedia :=
  { destination_url := "https://vx.example/playlist/999.m3u8?token=TOK&expires=1700000000&h=1",
    request_headers := .base_headers_ref,
    mediaflow_endpoint := "proxy_stream_endpoint" }

/-- The resolved media of the value-less `canPlayFHD` scenario: no `&h=1`. -/
def rr2 : ResolvedMedia :=
  { destination_url := "https://vx.example/playlist/999.m3u8?token=TOK&expires=1700000000",
    request_headers := .base_headers_ref,
    mediaflow_endpoint := "proxy_stream_endpoint" }

/-- A client request carrying a Range header. -/
def req0 : ClientRequest :=
  { method := "GET", headers := [("range", "bytes=0-99"), ("accept", "*/*")] }

/-- An upstream 206 response with a `Transfer-Encoding` header. -/
def up206 : UpstreamResp :=
  { status_code := 206,
    headers := [("Content-Range", "bytes 0-99/1000"), ("Transfer-Encoding", "chunked")],
    chunks := ["AB", "CD"] }

/-- An upstream 416 response with a body. -/
def up416 : UpstreamResp :=
  { status_code := 416, headers := [("Content-Length", "5")], chunks := ["OOPS!"] }

/-- An upstream 400 response with a body. -/
def up400 : UpstreamResp :=
  { status_code := 400, headers := [("x-upstream", "y")], chunks := ["BODY"] }

/-- An upstream 404 response. -/
def up404 : UpstreamResp :=
  { status_code := 404, headers := [], chunks := ["NF"] }

/-- An upstream 200 response advertising `Accept-Ranges: none`. -/
def upAR : UpstreamResp :=
  { status_code := 200,
    headers := [("Accept-Ranges", "none"), ("Content-Type", "video/mp4")],
    chunks := ["SEGDATA"] }

/-- A percent-encoded segment URL parameter. -/
def encurl : String := "https%3A%2F%2Fexample.com%2Fseg%2F1.m4s"

/-! Theorems. -/

/-- C1: for the page URL `https://streamingcommunity.to/watch/123`, a
bootstrap response embedding the JSON `version` `42`, a page whose iframe has
`src` `https://vx.example/embed/999?canPlayFHD=1`, and an embed script
containing the token fragment `TOK` and the expires fragment `1700000000`,
`extract` succeeds and returns a `ResolvedMedia` whose `destination_url` is
`https://vx.example/playlist/999.m3u8?token=TOK&expires=1700000000&h=1`. -/
theorem C1_worked_example :
    extract st0 url0 net1 = .ok (st1res, some rr1) ∧
      rr1.destination_url =
        "https://vx.example/playlist/999.m3u8?token=TOK&expires=1700000000&h=1" :=
  ⟨by rfl, rfl⟩

/-- C3: a `/stream` relay raises an `HTTPException` carrying exactly the
upstream status code, with no body chunk forwarded, precisely when the
upstream status is 400, 404 or 416; every other status is streamed through
rather than aborted. -/
theorem C3_stream_short_circuit (request : ClientRequest) (url : String)
    (upstream : UpstreamResp) :
    ((upstream.status_code = 400 ∨ upstream.status_code = 404 ∨ upstream.status_code = 416) →
      (proxy_stream_endpoint request url upstream).2 =
        RelayOutcome.httpError upstream.status_code
          ("Errore dal server upstream: " ++ toString upstream.status_code)) ∧
    (¬(upstream.status_code = 400 ∨ upstream.status_code = 404 ∨ upstream.status_code = 416) →
      (proxy_stream_endpoint request url upstream).2 =
        RelayOutcome.streamed upstream.status_code (stripTransferEncoding upstream.headers)
          upstream.chunks) := by
  refine ⟨fun h => ?_, fun h => ?_⟩ <;> simp only [proxy_stream_endpoint]
  · rw [if_pos h]
  · rw [if_neg h]

/-- Witness for C3 at upstream statuses 416 and 206. -/
theorem C3_stream_short_circuit_witness :
    (proxy_stream_endpoint req0 "https://example.com/v.mp4" up416).2 =
        RelayOutcome.httpError 416 "Errore dal server upstream: 416" ∧
      (proxy_stream_endpoint req0 "https://example.com/v.mp4" up206).2 =
        RelayOutcome.streamed 206
          [("Content-Range", "bytes 0-99/1000")] ["AB", "CD"] :=
  ⟨(C3_stream_short_circuit req0 "https://example.com/v.mp4" up416).1 (by decide),
   (C3_stream_short_circuit req0 "https://example.com/v.mp4" up206).2 (by decide)⟩

/-- C4: both relay endpoints forward the client's method and complete header
dict verbatim upstream (the segment endpoint to the percent-decoded URL);
whenever the response is not short-circuited it carries the upstream status
unchanged together with every upstream header except `Transfer-Encoding`,
which is absent even when present upstream. -/
theorem C4_verbatim_passthrough (request : ClientRequest) (url : String)
    (upstream : UpstreamResp) :
    (proxy_stream_endpoint request url upstream).1 =
        ⟨request.method, url, request.headers⟩ ∧
    (segment_endpoint request url upstream).1 =
        ⟨request.method, pyUnquote url, request.headers⟩ ∧
    (¬(upstream.status_code = 400 ∨ upstream.status_code = 404 ∨ upstream.status_code = 416) →
      (proxy_stream_endpoint request url upstream).2 =
        RelayOutcome.streamed upstream.status_code
          (stripTransferEncoding upstream.headers) upstream.chunks) ∧
    (upstream.status_code ≠ 404 →
      (segment_endpoint request url upstream).2 =
        RelayOutcome.streamed upstream.status_code
          (stripTransferEncoding upstream.headers) upstream.chunks) ∧
    (∀ k v, ((k, v) ∈ stripTransferEncoding upstream.headers ↔
      ((k, v) ∈ upstream.headers ∧ pyLowerStr k ≠ "transfer-encoding"))) := by
  refine ⟨rfl, rfl, fun h => ?_, fun h => ?_, fun k v => ?_⟩
  · simp only [proxy_stream_endpoint]
    rw [if_neg h]
  · simp only [segment_endpoint]
    rw [if_neg h]
  · simp [stripTransferEncoding, List.mem_filter]

/-- Witness for C4 at a 206 upstream response that carries both a
`Content-Range` and a `Transfer-Encoding` header. -/
theorem C4_verbatim_passthrough_witness :
    (proxy_stream_endpoint req0 "https://example.com/v.mp4" up206).1 =
        ⟨"GET", "https://example.com/v.mp4", [("range", "bytes=0-99"), ("accept", "*/*")]⟩ ∧
      (segment_endpoint req0 encurl up206).1 =
        ⟨"GET", "https://example.com/seg/1.m4s", [("range", "bytes=0-99"), ("accept", "*/*")]⟩ ∧
      (proxy_stream_endpoint req0 "https://example.com/v.mp4" up206).2 =
        RelayOutcome.streamed 206 [("Content-Range", "bytes 0-99/1000")] ["AB", "CD"] ∧
      (segment_endpoint req0 encurl up206).2 =
        RelayOutcome.streamed 206 [("Content-Range", "bytes 0-99/1000")] ["AB", "CD"] ∧
      (("Transfer-Encoding", "chunked") ∈ stripTransferEncoding up206.headers ↔
        (("Transfer-Encoding", "chunked") ∈ up206.headers ∧
          pyLowerStr "Transfer-Encoding" ≠ "transfer-encoding")) :=
  ⟨(C4_verbatim_passthrough req0 "https://example.com/v.mp4" up206).1,
   (C4_verbatim_passthrough req0 encurl up206).2.1,
   (C4_verbatim_passthrough req0 "https://example.com/v.mp4" up206).2.2.1 (by decide),
   (C4_verbatim_passthrough req0 encurl up206).2.2.2.1 (by decide),
   (C4_verbatim_passthrough req0 encurl up206).2.2.2.2 "Transfer-Encoding" "chunked"⟩

/-- C5 counterexample: against an upstream 200 response with
`Accept-Ranges: none`, the segment endpoint does not answer 416 with an empty
body — it streams the upstream body through with status 200.  The
Accept-Ranges check exists in the source only as commented-out code. -/
theorem C5_counterexample :
    (segment_endpoint req0 "https://example.com/seg/1.m4s" upAR).2 =
      RelayOutcome.streamed 200
        [("Accept-Ranges", "none"), ("Content-Type", "video/mp4")] ["SEGDATA"] :=
  rfl

/-- C5 amended: the segment endpoint applies no Accept-Ranges check at all;
for every upstream status other than 404 — in particular when `Accept-Ranges`
is missing or equals `none` — the upstream response is streamed through with
its own status code, its headers minus `Transfer-Encoding`, and its body. -/
theorem C5_amended_no_accept_ranges_check (request : ClientRequest) (url : String)
    (upstream : UpstreamResp) (h : upstream.status_code ≠ 404) :
    (segment_endpoint request url upstream).2 =
      RelayOutcome.streamed upstream.status_code (stripTransferEncoding upstream.headers)
        upstream.chunks := by
  simp only [segment_endpoint]
  rw [if_neg h]

/-- Witness for the amended C5 at the `Accept-Ranges: none` upstream. -/
theorem C5_amended_no_accept_ranges_check_witness :
    (segment_endpoint req0 "https://example.com/seg/1.m4s" upAR).2 =
      RelayOutcome.streamed 200
        [("Accept-Ranges", "none"), ("Content-Type", "video/mp4")] ["SEGDATA"] ∧
      upAR.status_code ≠ 404 :=
  ⟨C5_amended_no_accept_ranges_check req0 "https://example.com/seg/1.m4s" upAR (by decide),
   by decide⟩

/-- C6 counterexample: at upstream status 400 the segment endpoint does not
abort as `/stream` does — it streams the body through with status 400, while
`/stream` raises an `HTTPException 400` with no body. -/
theorem C6_counterexample :
    (segment_endpoint req0 "https://example.com/seg/1.m4s" up400).2 =
        RelayOutcome.streamed 400 [("x-upstream", "y")] ["BODY"] ∧
      (proxy_stream_endpoint req0 "https://example.com/seg/1.m4s" up400).2 =
        RelayOutcome.httpError 400 "Errore dal server upstream: 400" :=
  ⟨rfl, rfl⟩

/-- C6 amended: the segment endpoint percent-decodes its URL parameter and
forwards to the decoded URL, but its only short-circuit is upstream 404,
surfaced as an `HTTPException 404` with no body; upstream statuses 400 and
416 (like all other non-404 statuses) are streamed through, not aborted. -/
theorem C6_amended_segment_short_circuit (request : ClientRequest) (url : String)
    (upstream : UpstreamResp) :
    (segment_endpoint request url upstream).1.url = pyUnquote url ∧
    (upstream.status_code = 404 →
      (segment_endpoint request url upstream).2 =
        RelayOutcome.httpError 404 ("Segmento non trovato: " ++ pyUnquote url)) ∧
    (upstream.status_code ≠ 404 →
      (segment_endpoint request url upstream).2 =
        RelayOutcome.streamed upstream.status_code (stripTransferEncoding upstream.headers)
          upstream.chunks) := by
  refine ⟨rfl, fun h => ?_, fun h => ?_⟩ <;> simp only [segment_endpoint]
  · rw [if_pos h]
  · rw [if_neg h]

/-- Witness for the amended C6 at a percent-encoded URL, with upstream 404
and 206. -/
theorem C6_amended_segment_short_circuit_witness :
    (segment_endpoint req0 encurl up404).1.url = "https://example.com/seg/1.m4s" ∧
      (segment_endpoint req0 encurl up404).2 =
        RelayOutcome.httpError 404 "Segmento non trovato: https://example.com/seg/1.m4s" ∧
      (segment_endpoint req0 encurl up206).2 =
        RelayOutcome.streamed 206 [("Content-Range", "bytes 0-99/1000")] ["AB", "CD"] :=
  ⟨(C6_amended_segment_short_circuit req0 encurl up404).1,
   (C6_amended_segment_short_circuit req0 encurl up404).2.1 (by decide),
   (C6_amended_segment_short_circuit req0 encurl up206).2.2 (by decide)⟩

/-! Helper lemmas about the `Except` monad and the step functions. -/

/-- Bind on an `ok` value reduces to the continuation. -/
lemma except_ok_bind {α β : Type} (a : α) (f : α → Except ExtractErr β) :
    (Except.ok a >>= f) = f a := by rfl

/-- Bind on an `error` value propagates the error. -/
lemma except_error_bind {α β : Type} (e : ExtractErr) (f : α → Except ExtractErr β) :
    ((Except.error e : Except ExtractErr α) >>= f) = .error e := by rfl

/-- Pure is `ok`. -/
lemma except_pure_eq {α : Type} (a : α) : (pure a : Except ExtractErr α) = .ok a := by rfl

/-- Throw is `error`. -/
lemma except_throw_eq {α : Type} (e : ExtractErr) :
    (throw e : Except ExtractErr α) = .error e := by rfl

/-- A successful bind factors through a successful first component. -/
lemma except_bind_ok {α β : Type} {x : Except ExtractErr α} {f : α → Except ExtractErr β}
    {v : β} (h : x >>= f = .ok v) : ∃ a, x = .ok a ∧ f a = .ok v := by
  cases x with
  | error e => rw [except_error_bind] at h; exact absurd h (by simp)
  | ok a => rw [except_ok_bind] at h; exact ⟨a, rfl, h⟩

/-- A failing bind fails in the first component or in the continuation. -/
lemma except_bind_error {α β : Type} {x : Except ExtractErr α} {f : α → Except ExtractErr β}
    {e : ExtractErr} (h : x >>= f = .error e) :
    x = .error e ∨ ∃ a, x = .ok a ∧ f a = .error e := by
  cases x with
  | error e' =>
    rw [except_error_bind] at h
    injection h with h'
    exact Or.inl (by rw [h'])
  | ok a => rw [except_ok_bind] at h; exact Or.inr ⟨a, rfl, h⟩

/-- The only error `pyIndex` produces is the `IndexError`. -/
lemma pyIndex_error_shape {α : Type} (xs : List α) (i : Nat) (e : ExtractErr)
    (h : pyIndex xs i = .error e) : e = .indexError "list index out of range" := by
  unfold pyIndex at h
  split at h
  · exact absurd h (by simp)
  · injection h with h'
    exact h'.symm

/-- The only error the domain derivation produces is the `IndexError`. -/
lemma deriveDomain_error_shape (url : String) (e : ExtractErr)
    (h : deriveDomain url = .error e) : e = .indexError "list index out of range" := by
  unfold deriveDomain at h
  rcases except_bind_error h with h1 | ⟨s1, _, h⟩
  · exact pyIndex_error_shape _ _ _ h1
  · rcases except_bind_error h with h2 | ⟨host, _, h⟩
    · exact pyIndex_error_shape _ _ _ h2
    · exact pyIndex_error_shape _ _ _ h

/-- `getIframeSrc` succeeds exactly on a present iframe with a `src`. -/
lemma getIframeSrc_ok_iff (resp : HttpResp) (src : String) :
    getIframeSrc resp = .ok src ↔ resp.doc.iframe = some (some src) := by
  cases hi : resp.doc.iframe with
  | none => simp [getIframeSrc, hi]
  | some o =>
    cases o with
    | none => simp [getIframeSrc, hi]
    | some s => simp [getIframeSrc, hi]

/-- A successful embed-status check means the status was 200. -/
lemma checkEmbedStatus_ok (resp : HttpResp) (u : Unit)
    (h : checkEmbedStatus resp = .ok u) : resp.status_code = 200 := by
  unfold checkEmbedStatus at h
  split at h
  · exact absurd h (by simp)
  · rename_i hne
    exact not_not.mp hne

/-- `reGroup` succeeds exactly on a successful search. -/
lemma reGroup_ok_iff (m : Option String) (t : String) :
    reGroup m = .ok t ↔ m = some t := by
  cases m <;> simp [reGroup]

/-- Anatomy of a successful extraction: the successful branch of every step,
and the exact shape of the returned state and media. -/
lemma extract_ok_shape (st : ExtractorState) (url : String) (net : Net)
    (st' : ExtractorState) (r : ResolvedMedia)
    (h : extract st url net = .ok (st', some r)) :
    ∃ src script token expires seg vixid s2 bhost,
      net.page.doc.iframe = some (some src) ∧
      (net.embed src).status_code = 200 ∧
      (net.embed src).doc.body_script = some (some script) ∧
      searchToken script = some token ∧
      searchExpires script = some expires ∧
      pyIndex (pySplit "/embed/" src) 1 = .ok seg ∧
      pyIndex (pySplit "?" seg) 0 = .ok vixid ∧
      pyIndex (pySplit "://" src) 1 = .ok s2 ∧
      pyIndex (pySplit "/" s2) 0 = .ok bhost ∧
      r = { destination_url := mkFinalUrl bhost vixid token expires (parse_qs (urlQuery src)),
            request_headers := .base_headers_ref,
            mediaflow_endpoint := st.mediaflow_endpoint } ∧
      st' = { st with base_headers := pyDictSet st.base_headers "referer" url } := by
  unfold extract at h
  obtain ⟨domain, hd, h⟩ := except_bind_ok h
  obtain ⟨ver, hv, h⟩ := except_bind_ok h
  obtain ⟨iframe, hifr, h⟩ := except_bind_ok h
  obtain ⟨u, hck, h⟩ := except_bind_ok h
  rw [getIframeSrc_ok_iff] at hifr
  have h200 := checkEmbedStatus_ok _ _ hck
  split at h
  · rw [except_pure_eq] at h
    simp at h
  · rw [except_throw_eq] at h
    exact absurd h (by simp)
  · rename_i script hbs
    obtain ⟨token, ht, h⟩ := except_bind_ok h
    obtain ⟨expires, he, h⟩ := except_bind_ok h
    obtain ⟨seg, h1, h⟩ := except_bind_ok h
    obtain ⟨vixid, h2, h⟩ := except_bind_ok h
    obtain ⟨s2, h3, h⟩ := except_bind_ok h
    obtain ⟨bhost, h4, h⟩ := except_bind_ok h
    rw [except_pure_eq] at h
    rw [reGroup_ok_iff] at ht he
    simp only [Except.ok.injEq, Prod.mk.injEq, Option.some.injEq] at h
    obtain ⟨hst, hr⟩ := h
    exact ⟨iframe, script, token, expires, seg, vixid, s2, bhost, hifr, h200, hbs, ht, he,
      h1, h2, h3, h4, hr.symm, hst.symm⟩

/-! String and substring lemmas. -/

/-- Appending strings appends their character data. -/
lemma string_data_append (a b : String) : (a ++ b).data = a.data ++ b.data := by
  cases a with
  | mk l =>
    cases b with
    | mk m => rfl

/-- The empty string is right-neutral for append. -/
lemma string_append_empty_right (s : String) : s ++ "" = s := by
  cases s with
  | mk l =>
    show String.mk (l ++ []) = String.mk l
    rw [List.append_nil]

/-- The final URL laid out as one append chain with optional flag suffixes. -/
lemma mkFinalUrl_split (b v t e : String) (qp : List (String × List String)) :
    mkFinalUrl b v t e qp =
      "https://" ++ b ++ "/playlist/" ++ v ++ ".m3u8?token=" ++ t ++ "&expires=" ++ e
        ++ (if qsHasKey qp "canPlayFHD" then "&h=1" else "")
        ++ (if qsHasKey qp "b" then "&b=1" else "") := by
  unfold mkFinalUrl
  by_cases h1 : qsHasKey qp "canPlayFHD" <;> by_cases h2 : qsHasKey qp "b" <;>
    simp [h1, h2, string_append_empty_right]

/-- Unfolding `containsSub` on a cons cell. -/
lemma containsSub_cons (n : List Char) (c : Char) (t : List Char) :
    containsSub n (c :: t) = (n.isPrefixOf (c :: t) || containsSub n t) := by rfl

/-- A list is a prefix of itself followed by anything. -/
lemma isPrefixOf_self_append (n b : List Char) : n.isPrefixOf (n ++ b) = true := by
  induction n with
  | nil => cases b <;> rfl
  | cons c t ih => simp [List.isPrefixOf, ih]

/-- An occurrence in the right part survives prepending on the left. -/
lemma containsSub_append_right (n a b : List Char) (h : containsSub n b = true) :
    containsSub n (a ++ b) = true := by
  induction a with
  | nil => simpa using h
  | cons c t ih =>
    rw [List.cons_append, containsSub_cons, ih, Bool.or_true]

/-- A list occurs at the head of itself followed by anything. -/
lemma containsSub_self_append (n b : List Char) : containsSub n (n ++ b) = true := by
  cases n with
  | nil =>
    cases b with
    | nil => rfl
    | cons c t => rw [List.nil_append, containsSub_cons]; simp [List.isPrefixOf]
  | cons c t =>
    rw [List.cons_append, containsSub_cons]
    have h : (c :: t).isPrefixOf (c :: (t ++ b)) = true := isPrefixOf_self_append (c :: t) b
    rw [h, Bool.true_or]

/-- A false equality test stays false with the arguments flipped. -/
lemma beq_comm_false {α : Type} [BEq α] [LawfulBEq α] {a b : α}
    (h : (a == b) = false) : (b == a) = false := by
  cases hq : (b == a) with
  | false => rfl
  | true =>
    have hba := eq_of_beq hq
    subst hba
    simp at h

/-- Helper for `pyDictSet_lookup`: the update-in-place branch. -/
lemma lookup_map_set (d : List (String × String)) (k v : String)
    (hany : (d.any fun p => p.1 == k) = true) :
    (d.map (fun p => if p.1 == k then (k, v) else p)).lookup k = some v := by
  induction d with
  | nil => simp at hany
  | cons p t ih =>
    obtain ⟨pk, pv⟩ := p
    cases hp : (pk == k) with
    | true =>
      rw [List.map_cons, if_pos hp]
      simp [List.lookup]
    | false =>
      have hk : (k == pk) = false := beq_comm_false hp
      have hany' : (t.any fun p => p.1 == k) = true := by
        simp only [List.any_cons, hp, Bool.false_or] at hany
        exact hany
      rw [List.map_cons, if_neg (by simp [hp])]
      simp only [List.lookup, hk]
      exact ih hany'

/-- Helper for `pyDictSet_lookup`: the append branch. -/
lemma lookup_append_new (d : List (String × String)) (k v : String)
    (hnone : (d.any fun p => p.1 == k) = false) :
    (d ++ [(k, v)]).lookup k = some v := by
  induction d with
  | nil => simp [List.lookup]
  | cons p t ih =>
    rw [List.any_cons, Bool.or_eq_false_iff] at hnone
    obtain ⟨hp, ht⟩ := hnone
    have hk : (k == p.1) = false := beq_comm_false hp
    simp only [List.cons_append, List.lookup, hk]
    exact ih ht

/-- Looking up the assigned key after a dict assignment yields the assigned
value. -/
lemma pyDictSet_lookup (d : List (String × String)) (k v : String) :
    (pyDictSet d k v).lookup k = some v := by
  unfold pyDictSet
  split
  · rename_i hany
    exact lookup_map_set d k v hany
  · rename_i hany
    have hfalse : (d.any fun p => p.1 == k) = false := by
      cases hb : (d.any fun p => p.1 == k) with
      | false => rfl
      | true => exact absurd hb hany
    exact lookup_append_new d k v hfalse

/-- C2 counterexample: with the embed URL
`https://vx.example/embed/999?canPlayFHD`, the key `canPlayFHD` appears in
the embed URL's query string (it is the whole query string), the extraction
succeeds, and yet the destination URL does not contain `&h=1`: `parse_qs`
drops keys that carry no value, so presence in the query string alone does
not produce the flag. -/
theorem C2_counterexample :
    pySplit "&" (urlQuery iframe2) = ["canPlayFHD"] ∧
      extract st0 url0 net2 = .ok (st1res, some rr2) ∧
      containsSub "&h=1".data rr2.destination_url.data = false :=
  ⟨by rfl, by rfl, by rfl⟩

/-- C2 amended: for every successful extraction, the destination URL is the
playlist URL with `token` and `expires` followed by `&h=1` exactly when
`canPlayFHD` is a key of the parsed query parameters of the embed URL (that
is, appears with a non-empty value), and then `&b=1` exactly when `b` is such
a key; when both flags are produced `&h=1` precedes `&b=1` and both follow
`token` and `expires`. -/
theorem C2_amended_flag_suffixes (st : ExtractorState) (url : String) (net : Net)
    (st' : ExtractorState) (r : ResolvedMedia)
    (src script token expires seg vixid s2 bhost : String)
    (h : extract st url net = .ok (st', some r))
    (hif : net.page.doc.iframe = some (some src))
    (hscr : (net.embed src).doc.body_script = some (some script))
    (ht : searchToken script = some token)
    (he : searchExpires script = some expires)
    (h1 : pyIndex (pySplit "/embed/" src) 1 = .ok seg)
    (h2 : pyIndex (pySplit "?" seg) 0 = .ok vixid)
    (h3 : pyIndex (pySplit "://" src) 1 = .ok s2)
    (h4 : pyIndex (pySplit "/" s2) 0 = .ok bhost) :
    r.destination_url =
      "https://" ++ bhost ++ "/playlist/" ++ vixid ++ ".m3u8?token=" ++ token
        ++ "&expires=" ++ expires
        ++ (if qsHasKey (parse_qs (urlQuery src)) "canPlayFHD" then "&h=1" else "")
        ++ (if qsHasKey (parse_qs (urlQuery src)) "b" then "&b=1" else "") := by
  obtain ⟨src', script', token', expires', seg', vixid', s2', bhost', hif', h200', hscr', ht',
    he', h1', h2', h3', h4', hr, _⟩ := extract_ok_shape st url net st' r h
  rw [hif] at hif'
  injection hif' with hif2
  injection hif2 with hif3
  subst hif3
  rw [hscr] at hscr'
  injection hscr' with hscr2
  injection hscr2 with hscr3
  subst hscr3
  rw [ht] at ht'
  injection ht' with ht2
  subst ht2
  rw [he] at he'
  injection he' with he2
  subst he2
  rw [h1] at h1'
  injection h1' with h1b
  subst h1b
  rw [h2] at h2'
  injection h2' with h2b
  subst h2b
  rw [h3] at h3'
  injection h3' with h3b
  subst h3b
  rw [h4] at h4'
  injection h4' with h4b
  subst h4b
  have hurl : r.destination_url =
      mkFinalUrl bhost vixid token expires (parse_qs (urlQuery src)) := by
    rw [hr]
  rw [hurl]
  exact mkFinalUrl_split bhost vixid token expires (parse_qs (urlQuery src))

/-- Witness for the amended C2 at the worked example. -/
theorem C2_amended_flag_suffixes_witness :
    rr1.destination_url =
      "https://" ++ "vx.example" ++ "/playlist/" ++ "999" ++ ".m3u8?token=" ++ "TOK"
        ++ "&expires=" ++ "1700000000"
        ++ (if qsHasKey (parse_qs (urlQuery iframe1)) "canPlayFHD" then "&h=1" else "")
        ++ (if qsHasKey (parse_qs (urlQuery iframe1)) "b" then "&b=1" else "") :=
  C2_amended_flag_suffixes st0 url0 net1 st1res rr1 iframe1 script1 "TOK" "1700000000"
    "999?canPlayFHD=1" "999" "vx.example/embed/999?canPlayFHD=1" "vx.example"
    (by rfl) (by rfl) (by rfl) (by rfl) (by rfl) (by rfl) (by rfl) (by rfl) (by rfl)

/-- C7 counterexample: when the embed script matches neither pattern,
`extract` does not fail with the typed `ExtractorError` — it raises the
untyped `AttributeError` coming from calling `.group` on `None`. -/
theorem C7_counterexample :
    extract st0 url0 net7 =
        .error (.attributeError "NoneType object has no attribute group") ∧
      ExtractErr.isTyped (.attributeError "NoneType object has no attribute group") = false :=
  ⟨by rfl, by rfl⟩

/-- C7 amended: a missing token or expires value makes `extract` fail — with
the untyped `AttributeError` of `.group` on `None` rather than a typed
`ParseError` (see the counterexample) — and consequently every
`ResolvedMedia` that `extract` does return has a `destination_url` containing
both `token=` and `expires=`. -/
theorem C7_amended_tokens_always_present (st : ExtractorState) (url : String) (net : Net)
    (st' : ExtractorState) (r : ResolvedMedia)
    (h : extract st url net = .ok (st', some r)) :
    containsSub "token=".data r.destination_url.data = true ∧
      containsSub "expires=".data r.destination_url.data = true := by
  obtain ⟨src, script, token, expires, seg, vixid, s2, bhost, _, _, _, _, _, _, _, _, _, hr, _⟩ :=
    extract_ok_shape st url net st' r h
  have hurl : r.destination_url =
      mkFinalUrl bhost vixid token expires (parse_qs (urlQuery src)) := by
    rw [hr]
  have e1 : ".m3u8?token=" = ".m3u8?" ++ "token=" := by rfl
  have e2 : "&expires=" = "&" ++ "expires=" := by rfl
  constructor
  · rw [hurl, mkFinalUrl_split, e1]
    simp only [string_data_append, List.append_assoc]
    apply containsSub_append_right
    apply containsSub_append_right
    apply containsSub_append_right
    apply containsSub_append_right
    apply containsSub_append_right
    exact containsSub_self_append _ _
  · rw [hurl, mkFinalUrl_split, e2]
    simp only [string_data_append, List.append_assoc]
    apply containsSub_append_right
    apply containsSub_append_right
    apply containsSub_append_right
    apply containsSub_append_right
    apply containsSub_append_right
    apply containsSub_append_right
    apply containsSub_append_right
    exact containsSub_self_append _ _

/-- Witness for the amended C7 at the worked example. -/
theorem C7_amended_tokens_always_present_witness :
    containsSub "token=".data rr1.destination_url.data = true ∧
      containsSub "expires=".data rr1.destination_url.data = true :=
  C7_amended_tokens_always_present st0 url0 net1 st1res rr1 (by rfl)

/-- C8 counterexample: the header map returned by a first extraction is the
extractor's shared `base_headers` dict, so a second extraction with a
different page URL changes what the first call's returned reference shows —
the returned map is not a fresh per-call value. -/
theorem C8_counterexample :
    extract st0 url0 net1 = .ok (st1res, some rr1) ∧
      extract st1res urlB net1 = .ok (st2res, some rr1) ∧
      readHeaders rr1.request_headers st1res ≠ readHeaders rr1.request_headers st2res :=
  ⟨by rfl, by rfl, by decide⟩

/-- C8 amended: every successful `extract` mutates the extractor's shared
`base_headers` dict, setting its `referer` entry to the page URL of that
call, and returns that shared dict itself (by reference, not as a copy); at
return time the referenced map therefore carries `referer = url`, but the map
is shared across calls rather than request-scoped (see the counterexample). -/
theorem C8_amended_shared_headers (st : ExtractorState) (url : String) (net : Net)
    (st' : ExtractorState) (r : ResolvedMedia)
    (h : extract st url net = .ok (st', some r)) :
    r.request_headers = HeaderRef.base_headers_ref ∧
      st'.base_headers = pyDictSet st.base_headers "referer" url ∧
      readHeaders r.request_headers st' = pyDictSet st.base_headers "referer" url ∧
      (readHeaders r.request_headers st').lookup "referer" = some url := by
  obtain ⟨src, script, token, expires, seg, vixid, s2, bhost, _, _, _, _, _, _, _, _, _, hr,
    hst⟩ := extract_ok_shape st url net st' r h
  refine ⟨by rw [hr], by rw [hst], ?_, ?_⟩
  · rw [hr, hst]
    rfl
  · rw [hr, hst]
    exact pyDictSet_lookup st.base_headers "referer" url

/-- Witness for the amended C8 at the worked example. -/
theorem C8_amended_shared_headers_witness :
    rr1.request_headers = HeaderRef.base_headers_ref ∧
      st1res.base_headers = pyDictSet st0.base_headers "referer" url0 ∧
      readHeaders rr1.request_headers st1res = pyDictSet st0.base_headers "referer" url0 ∧
      (readHeaders rr1.request_headers st1res).lookup "referer" = some url0 :=
  C8_amended_shared_headers st0 url0 net1 st1res rr1 (by rfl)

/-! Lemmas computing `pySplitCh` on structured inputs, for the domain
derivation. -/

/-- A prefix is no longer than the list. -/
lemma isPrefixOf_length_le (n s : List Char) (h : n.isPrefixOf s = true) :
    n.length ≤ s.length := by
  induction n generalizing s with
  | nil => simp
  | cons c t ih =>
    cases s with
    | nil => simp [List.isPrefixOf] at h
    | cons x u =>
      simp only [List.isPrefixOf, Bool.and_eq_true] at h
      simp only [List.length_cons, Nat.succ_le_succ_iff]
      exact ih u h.2

/-- A found occurrence fits inside the list. -/
lemma findSub_le (sep s : List Char) (i : Nat) (h : findSub sep s = some i) :
    i + sep.length ≤ s.length := by
  induction s generalizing i with
  | nil =>
    unfold findSub at h
    split at h
    · rename_i hp
      injection h with hi
      subst hi
      simpa using isPrefixOf_length_le _ _ hp
    · exact absurd h (by simp)
  | cons x t ih =>
    unfold findSub at h
    split at h
    · rename_i hp
      injection h with hi
      subst hi
      simpa using isPrefixOf_length_le _ _ hp
    · cases hft : findSub sep t with
      | none => rw [hft] at h; exact absurd h (by simp)
      | some j =>
        rw [hft] at h
        simp at h
        subst h
        have := ih j hft
        simp only [List.length_cons]
        omega

/-- The occurrence reported by `findSub` really is a prefix of the
corresponding suffix. -/
lemma findSub_isPrefixOf (sep s : List Char) (i : Nat) (h : findSub sep s = some i) :
    sep.isPrefixOf (s.drop i) = true := by
  induction s generalizing i with
  | nil =>
    unfold findSub at h
    split at h
    · rename_i hp
      injection h with hi
      subst hi
      simpa using hp
    · exact absurd h (by simp)
  | cons x t ih =>
    unfold findSub at h
    split at h
    · rename_i hp
      injection h with hi
      subst hi
      simpa using hp
    · cases hft : findSub sep t with
      | none => rw [hft] at h; exact absurd h (by simp)
      | some j =>
        rw [hft] at h
        simp at h
        subst h
        simpa using ih j hft

/-- First occurrence of a separator placed explicitly after a block free of
its first character. -/
lemma findSub_cons_append (c : Char) (cs a b : List Char) (ha : c ∉ a) :
    findSub (c :: cs) (a ++ c :: (cs ++ b)) = some a.length := by
  induction a with
  | nil =>
    simp only [List.nil_append, List.length_nil]
    unfold findSub
    rw [if_pos]
    simp [List.isPrefixOf, isPrefixOf_self_append]
  | cons x a' ih =>
    have hx : c ≠ x := fun hcx => ha (hcx ▸ List.mem_cons_self x a')
    have hcx : (c == x) = false := by simp [hx]
    have ha' : c ∉ a' := fun hmem => ha (List.mem_cons_of_mem x hmem)
    rw [List.cons_append]
    unfold findSub
    rw [if_neg (by simp [List.isPrefixOf, hcx])]
    rw [ih ha']
    simp

/-- No occurrence when the separator's first character is absent. -/
lemma findSub_not_mem_head (c : Char) (cs s : List Char) (h : c ∉ s) :
    findSub (c :: cs) s = none := by
  induction s with
  | nil => rfl
  | cons x t ih =>
    have hx : c ≠ x := fun hcx => h (hcx ▸ List.mem_cons_self x t)
    have hcx : (c == x) = false := by simp [hx]
    have ht : c ∉ t := fun hmem => h (List.mem_cons_of_mem x hmem)
    unfold findSub
    rw [if_neg (by simp [List.isPrefixOf, hcx]), ih ht]
    rfl

/-- The fuel of `splitGo` is irrelevant once it exceeds the input length. -/
lemma splitGo_fuel_eq (sep : List Char) (hne : sep ≠ []) :
    ∀ (f g : Nat) (s : List Char), s.length < f → s.length < g →
      splitGo f sep s = splitGo g sep s := by
  intro f
  induction f with
  | zero => intro g s hf; exact absurd hf (by omega)
  | succ f ih =>
    intro g s hf hg
    cases g with
    | zero => exact absurd hg (by omega)
    | succ g' =>
      have hemp : sep.isEmpty = false := by
        cases sep with
        | nil => exact absurd rfl hne
        | cons c cs => rfl
      cases hfind : findSub sep s with
      | none => simp [splitGo, hfind]
      | some i =>
        simp only [splitGo, hfind, hemp, Bool.false_eq_true, if_false]
        congr 1
        have hle := findSub_le sep s i hfind
        have hpos : 1 ≤ sep.length := by
          cases sep with
          | nil => exact absurd rfl hne
          | cons c cs => simp
        have hdrop : (s.drop (i + sep.length)).length = s.length - (i + sep.length) := by
          simp
        apply ih
        · omega
        · omega

/-- Unfolding `pySplitCh` at a found occurrence. -/
lemma pySplitCh_eq_cons (sep s : List Char) (hne : sep ≠ []) (i : Nat)
    (h : findSub sep s = some i) :
    pySplitCh sep s = s.take i :: pySplitCh sep (s.drop (i + sep.length)) := by
  have hemp : sep.isEmpty = false := by
    cases sep with
    | nil => exact absurd rfl hne
    | cons c cs => rfl
  show splitGo (s.length + 1) sep s = _
  simp only [splitGo, h, hemp, Bool.false_eq_true, if_false]
  congr 1
  have hle := findSub_le sep s i h
  have hpos : 1 ≤ sep.length := by
    cases sep with
    | nil => exact absurd rfl hne
    | cons c cs => simp
  apply splitGo_fuel_eq sep hne
  · rw [List.length_drop]
    omega
  · omega

/-- `pySplitCh` with no occurrence keeps the list whole. -/
lemma pySplitCh_eq_single (sep s : List Char) (h : findSub sep s = none) :
    pySplitCh sep s = [s] := by
  show splitGo (s.length + 1) sep s = _
  simp [splitGo, h]

/-- Dropping within the left part of an append. -/
lemma drop_append_le {α : Type} (a b : List α) (j : Nat) (h : j ≤ a.length) :
    (a ++ b).drop j = a.drop j ++ b := by
  induction a generalizing j with
  | nil =>
    have : j = 0 := by simpa using h
    subst this
    simp
  | cons x t ih =>
    cases j with
    | zero => simp
    | succ j' =>
      simp only [List.cons_append, List.drop_succ_cons]
      exact ih j' (by simpa using h)

/-- Taking beyond the left part of an append. -/
lemma take_append_add {α : Type} (a b : List α) (k : Nat) :
    (a ++ b).take (a.length + k) = a ++ b.take k := by
  induction a with
  | nil => simp
  | cons x t ih =>
    simp only [List.cons_append, List.length_cons]
    rw [Nat.succ_add, List.take_succ_cons, ih]

/-- Splitting at a separator occurrence placed after a block free of the
separator's first character. -/
lemma pySplitCh_append_sep (c : Char) (cs a b : List Char) (ha : c ∉ a) :
    pySplitCh (c :: cs) (a ++ c :: (cs ++ b)) = a :: pySplitCh (c :: cs) b := by
  have hf := findSub_cons_append c cs a b ha
  rw [pySplitCh_eq_cons (c :: cs) _ (by simp) a.length hf]
  congr 1
  · exact List.take_left a (c :: (cs ++ b))
  · have hsh : a ++ c :: (cs ++ b) = (a ++ c :: cs) ++ b := by simp
    have hlen : a.length + (c :: cs).length = (a ++ c :: cs).length := by simp
    rw [hsh, hlen, List.drop_left]

/-- Splitting with no occurrence at all. -/
lemma pySplitCh_no_sep (c : Char) (cs s : List Char) (h : c ∉ s) :
    pySplitCh (c :: cs) s = [s] :=
  pySplitCh_eq_single _ _ (findSub_not_mem_head c cs s h)

/-- The head of a colon-headed split of `H ++ '/' :: z` keeps the whole of a
colon-free, slash-free `H` and the following slash: any occurrence of the
separator starts strictly after the slash. -/
lemma pySplitCh_colon_head (cs H z : List Char) (hH : ':' ∉ H) :
    ∃ w tail, pySplitCh (':' :: cs) (H ++ '/' :: z) = (H ++ '/' :: w) :: tail := by
  cases hfind : findSub (':' :: cs) (H ++ '/' :: z) with
  | none =>
    exact ⟨z, [], by rw [pySplitCh_eq_single _ _ hfind]⟩
  | some i =>
    have hpre := findSub_isPrefixOf _ _ _ hfind
    have hge : H.length + 1 ≤ i := by
      by_contra hlt
      have hle : i ≤ H.length := by omega
      cases Nat.lt_or_ge i H.length with
      | inl hilt =>
        rw [drop_append_le H ('/' :: z) i (Nat.le_of_lt hilt),
          List.drop_eq_getElem_cons hilt] at hpre
        simp only [List.cons_append, List.isPrefixOf, Bool.and_eq_true, beq_iff_eq] at hpre
        exact absurd (hpre.1 ▸ List.getElem_mem hilt) hH
      | inr hige =>
        have : i = H.length := by omega
        subst this
        rw [drop_append_le H ('/' :: z) H.length (Nat.le_refl _), List.drop_length] at hpre
        simp [List.isPrefixOf] at hpre
    obtain ⟨k, hk⟩ : ∃ k, i = H.length + (k + 1) := ⟨i - (H.length + 1), by omega⟩
    refine ⟨z.take k, pySplitCh (':' :: cs) ((H ++ '/' :: z).drop (i + (':' :: cs).length)), ?_⟩
    rw [pySplitCh_eq_cons (':' :: cs) _ (by simp) i hfind]
    congr 1
    rw [hk, take_append_add, List.take_succ_cons]

/-- `pyIndex` through a known entry. -/
lemma pyIndex_of_getElem {α : Type} (l : List α) (i : Nat) (x : α) (h : l[i]? = some x) :
    pyIndex l i = .ok x := by
  unfold pyIndex
  rw [h]

/-- `pyIndex` through a missing entry. -/
lemma pyIndex_of_getElem_none {α : Type} (l : List α) (i : Nat) (h : l[i]? = none) :
    pyIndex l i = .error (.indexError "list index out of range") := by
  unfold pyIndex
  rw [h]

/-- For a URL of the shape `scheme://HOST/...` where the scheme is
colon-free and the host block `H` is colon-free and slash-free, the domain
derivation reduces to indexing the dot-split of the host. -/
lemma deriveDomain_eq_host_split (u scheme : String) (H z : List Char)
    (hu : u.data = scheme.data ++ ':' :: '/' :: '/' :: (H ++ '/' :: z))
    (hs : ':' ∉ scheme.data) (hHc : ':' ∉ H) (hHs : '/' ∉ H) :
    deriveDomain u = pyIndex (pySplit "." (String.mk H)) 1 := by
  have e0 : "://".data = ([':', '/', '/'] : List Char) := rfl
  have e1 : pySplitCh [':', '/', '/'] (scheme.data ++ ':' :: '/' :: '/' :: (H ++ '/' :: z))
      = scheme.data :: pySplitCh [':', '/', '/'] (H ++ '/' :: z) :=
    pySplitCh_append_sep ':' ['/', '/'] scheme.data (H ++ '/' :: z) hs
  obtain ⟨w, tail, e2⟩ := pySplitCh_colon_head ['/', '/'] H z hHc
  have s1 : pyIndex (pySplit "://" u) 1 = .ok (String.mk (H ++ '/' :: w)) := by
    apply pyIndex_of_getElem
    unfold pySplit
    rw [List.getElem?_map, e0, hu, e1, e2, List.getElem?_cons_succ, List.getElem?_cons_zero]
    rfl
  have s2 : pyIndex (pySplit "/" (String.mk (H ++ '/' :: w))) 0 = .ok (String.mk H) := by
    apply pyIndex_of_getElem
    unfold pySplit
    rw [List.getElem?_map]
    have e3 : pySplitCh ['/'] (H ++ '/' :: w) = H :: pySplitCh ['/'] w :=
      pySplitCh_append_sep '/' [] H w hHs
    show ((pySplitCh ['/'] (H ++ '/' :: w))[0]?).map (fun l => String.mk l)
      = some (String.mk H)
    rw [e3, List.getElem?_cons_zero]
    rfl
  unfold deriveDomain
  rw [s1, except_ok_bind, s2, except_ok_bind]

/-- C9 amended: for a well-formed page URL whose host has the dot-separated
shape `sub.domain.tld`, the domain derivation yields exactly the second
dot-separated host segment; for a URL whose host has no dot (fewer than two
dot-separated segments), `extract` fails with the untyped `IndexError` of
`split(".")[1]` — not with a typed `BadInput` extraction error. -/
theorem C9_amended :
    (∀ scheme sub dom tld rest : String,
      ':' ∉ scheme.data →
      '.' ∉ sub.data → '/' ∉ sub.data → ':' ∉ sub.data →
      '.' ∉ dom.data → '/' ∉ dom.data → ':' ∉ dom.data →
      '/' ∉ tld.data → ':' ∉ tld.data →
      deriveDomain (scheme ++ "://" ++ sub ++ "." ++ dom ++ "." ++ tld ++ "/" ++ rest) =
        .ok dom) ∧
    (∀ (st : ExtractorState) (net : Net) (scheme host rest : String),
      ':' ∉ scheme.data → '.' ∉ host.data → '/' ∉ host.data → ':' ∉ host.data →
      extract st (scheme ++ "://" ++ host ++ "/" ++ rest) net =
        .error (.indexError "list index out of range")) := by
  constructor
  · intro scheme sub dom tld rest hs hsub1 hsub2 hsub3 hdom1 hdom2 hdom3 htld1 htld2
    have hHc : ':' ∉ (sub.data ++ '.' :: (dom.data ++ '.' :: tld.data)) := by
      intro hmem
      simp only [List.mem_append, List.mem_cons] at hmem
      rcases hmem with h | h | h | h | h
      · exact hsub3 h
      · exact absurd h (by decide)
      · exact hdom3 h
      · exact absurd h (by decide)
      · exact htld2 h
    have hHs : '/' ∉ (sub.data ++ '.' :: (dom.data ++ '.' :: tld.data)) := by
      intro hmem
      simp only [List.mem_append, List.mem_cons] at hmem
      rcases hmem with h | h | h | h | h
      · exact hsub2 h
      · exact absurd h (by decide)
      · exact hdom2 h
      · exact absurd h (by decide)
      · exact htld1 h
    have hu : (scheme ++ "://" ++ sub ++ "." ++ dom ++ "." ++ tld ++ "/" ++ rest).data
        = scheme.data ++ ':' :: '/' :: '/' ::
            ((sub.data ++ '.' :: (dom.data ++ '.' :: tld.data)) ++ '/' :: rest.data) := by
      simp only [string_data_append, show "://".data = ([':', '/', '/'] : List Char) from rfl,
        show ".".data = (['.'] : List Char) from rfl,
        show "/".data = (['/'] : List Char) from rfl,
        List.append_assoc, List.cons_append, List.nil_append]
    rw [deriveDomain_eq_host_split _ scheme
      (sub.data ++ '.' :: (dom.data ++ '.' :: tld.data)) rest.data hu hs hHc hHs]
    apply pyIndex_of_getElem
    unfold pySplit
    rw [List.getElem?_map]
    have ha := pySplitCh_append_sep '.' [] sub.data (dom.data ++ '.' :: tld.data) hsub1
    have hb := pySplitCh_append_sep '.' [] dom.data tld.data hdom1
    have e4 : pySplitCh ['.'] (sub.data ++ '.' :: (dom.data ++ '.' :: tld.data))
        = sub.data :: (dom.data :: pySplitCh ['.'] tld.data) := by
      have hstep : pySplitCh ['.'] (sub.data ++ '.' :: (dom.data ++ '.' :: tld.data))
          = sub.data :: pySplitCh ['.'] (dom.data ++ '.' :: tld.data) := ha
      rw [hstep]
      exact congrArg (sub.data :: ·) hb
    show ((pySplitCh ['.'] (sub.data ++ '.' :: (dom.data ++ '.' :: tld.data)))[1]?).map
      (fun l => String.mk l) = some dom
    rw [e4, List.getElem?_cons_succ, List.getElem?_cons_zero]
    rfl
  · intro st net scheme host rest hs hdot hslash hcolon
    have hu2 : (scheme ++ "://" ++ host ++ "/" ++ rest).data
        = scheme.data ++ ':' :: '/' :: '/' :: (host.data ++ '/' :: rest.data) := by
      simp only [string_data_append, show "://".data = ([':', '/', '/'] : List Char) from rfl,
        show "/".data = (['/'] : List Char) from rfl,
        List.append_assoc, List.cons_append, List.nil_append]
    have herr : deriveDomain (scheme ++ "://" ++ host ++ "/" ++ rest) =
        .error (.indexError "list index out of range") := by
      rw [deriveDomain_eq_host_split _ scheme host.data rest.data hu2 hs hcolon hslash]
      apply pyIndex_of_getElem_none
      unfold pySplit
      rw [List.getElem?_map]
      have e5 : pySplitCh ['.'] host.data = [host.data] :=
        pySplitCh_no_sep '.' [] host.data hdot
      show ((pySplitCh ['.'] host.data)[1]?).map (fun l => String.mk l) = none
      rw [e5]
      rfl
    unfold extract
    rw [herr, except_error_bind]

/-- Witness for the amended C9: the three-segment host
`www.streamingcommunity.to` yields `streamingcommunity`, and the dotless host
`localhost` makes `extract` raise the untyped `IndexError`. -/
theorem C9_amended_witness :
    deriveDomain "https://www.streamingcommunity.to/watch/1" = .ok "streamingcommunity" ∧
      extract st0 "https://localhost/watch/1" net1 =
        .error (.indexError "list index out of range") :=
  ⟨C9_amended.1 "https" "www" "streamingcommunity" "to" "watch/1" (by decide) (by decide)
      (by decide) (by decide) (by decide) (by decide) (by decide) (by decide) (by decide),
   C9_amended.2 st0 net1 "https" "localhost" "watch/1" (by decide) (by decide) (by decide)
      (by decide)⟩

/-- C9 counterexample: at the malformed-host page URL
`https://localhost/watch/1`, `extract` does not fail with a typed `BadInput`
extraction error — it raises the untyped `IndexError` of `split(".")[1]`. -/
theorem C9_counterexample :
    extract st0 "https://localhost/watch/1" net1 =
        .error (.indexError "list index out of range") ∧
      ExtractErr.isTyped (.indexError "list index out of range") = false :=
  ⟨by rfl, by rfl⟩

/-- The errors of `version` are never those of the iframe stage. -/
lemma version_error_not_iframe (net : Net) (d : String) (e : ExtractErr)
    (h : version net d = .error e) :
    e ≠ .attributeError "NoneType object has no attribute get" ∧
    e ≠ .typeError "urlparse argument is None" := by
  unfold version at h
  dsimp only at h
  split at h
  · injection h with h'
    subst h'
    exact ⟨by decide, by decide⟩
  · split at h
    · exact absurd h (by simp)
    · injection h with h'
      subst h'
      exact ⟨by decide, by decide⟩
    · injection h with h'
      subst h'
      exact ⟨by decide, by decide⟩
    · split at h
      · exact absurd h (by simp)
      · injection h with h'
        subst h'
        exact ⟨by decide, by decide⟩
    · injection h with h'
      subst h'
      exact ⟨by decide, by decide⟩

/-- Every error of `extract` comes from a known stage: the domain
derivation, the version fetch, the iframe stage, the embed-status check, the
missing-script or missing-regex-match `AttributeError`s, or an
`IndexError` from one of the index accesses. -/
lemma extract_error_classify (st : ExtractorState) (url : String) (net : Net)
    (e : ExtractErr) (h : extract st url net = .error e) :
    deriveDomain url = .error e ∨
    (∃ d, version net d = .error e) ∨
    getIframeSrc net.page = .error e ∨
    e = .extractorError "Failed to extract URL components, Invalid Request" ∨
    e = .attributeError "NoneType object has no attribute text" ∨
    e = .attributeError "NoneType object has no attribute group" ∨
    e = .indexError "list index out of range" := by
  unfold extract at h
  rcases except_bind_error h with h1 | ⟨domain, hd, h⟩
  · exact Or.inl h1
  rcases except_bind_error h with h2 | ⟨ver, hv, h⟩
  · exact Or.inr (Or.inl ⟨domain, h2⟩)
  rcases except_bind_error h with h3 | ⟨iframe, hif, h⟩
  · exact Or.inr (Or.inr (Or.inl h3))
  rcases except_bind_error h with h4 | ⟨u, hck, h⟩
  · unfold checkEmbedStatus at h4
    split at h4
    · injection h4 with h4'
      exact Or.inr (Or.inr (Or.inr (Or.inl h4'.symm)))
    · exact absurd h4 (by simp)
  split at h
  · rw [except_pure_eq] at h
    exact absurd h (by simp)
  · rw [except_throw_eq] at h
    injection h with h'
    exact Or.inr (Or.inr (Or.inr (Or.inr (Or.inl h'.symm))))
  rcases except_bind_error h with h5 | ⟨token, htk, h⟩
  · unfold reGroup at h5
    split at h5
    · injection h5 with h5'
      exact Or.inr (Or.inr (Or.inr (Or.inr (Or.inr (Or.inl h5'.symm)))))
    · exact absurd h5 (by simp)
  rcases except_bind_error h with h6 | ⟨expi, hex, h⟩
  · unfold reGroup at h6
    split at h6
    · injection h6 with h6'
      exact Or.inr (Or.inr (Or.inr (Or.inr (Or.inr (Or.inl h6'.symm)))))
    · exact absurd h6 (by simp)
  rcases except_bind_error h with h7 | ⟨seg, hseg, h⟩
  · exact Or.inr (Or.inr (Or.inr (Or.inr (Or.inr (Or.inr (pyIndex_error_shape _ _ _ h7))))))
  rcases except_bind_error h with h8 | ⟨vix, hvix, h⟩
  · exact Or.inr (Or.inr (Or.inr (Or.inr (Or.inr (Or.inr (pyIndex_error_shape _ _ _ h8))))))
  rcases except_bind_error h with h9 | ⟨s2v, hs2v, h⟩
  · exact Or.inr (Or.inr (Or.inr (Or.inr (Or.inr (Or.inr (pyIndex_error_shape _ _ _ h9))))))
  rcases except_bind_error h with h10 | ⟨bh, hbh, h⟩
  · exact Or.inr (Or.inr (Or.inr (Or.inr (Or.inr (Or.inr (pyIndex_error_shape _ _ _ h10))))))
  rw [except_pure_eq] at h
  exact absurd h (by simp)

/-- C10: the status code of the page fetch is never consulted — changing it
changes nothing about the extraction; when the page has an iframe with a
`src`, `extract` never fails with the iframe-stage errors; and when the
earlier stages succeed and the page has no iframe, `extract` fails exactly
with the `AttributeError` of calling `.get` on `None`. -/
theorem C10_page_status_ignored :
    (∀ (st : ExtractorState) (url : String) (net : Net) (s : Nat),
      extract st url { net with page := { net.page with status_code := s } } =
        extract st url net) ∧
    (∀ (st : ExtractorState) (url : String) (net : Net) (src : String),
      net.page.doc.iframe = some (some src) →
      extract st url net ≠ .error (.attributeError "NoneType object has no attribute get") ∧
      extract st url net ≠ .error (.typeError "urlparse argument is None")) ∧
    (∀ (st : ExtractorState) (url : String) (net : Net) (d : String) (v : Option Json),
      deriveDomain url = .ok d → version net d = .ok v → net.page.doc.iframe = none →
      extract st url net = .error (.attributeError "NoneType object has no attribute get")) := by
  refine ⟨?_, ?_, ?_⟩
  · intro st url net s
    rfl
  · intro st url net src hif
    have hok : getIframeSrc net.page = .ok src := (getIframeSrc_ok_iff net.page src).mpr hif
    constructor <;> intro hcontra
    · rcases extract_error_classify st url net _ hcontra with h1 | ⟨d, h2⟩ | h3 | h4 | h4 | h4 | h4
      · exact absurd (deriveDomain_error_shape _ _ h1) (by decide)
      · exact (version_error_not_iframe net d _ h2).1 rfl
      · rw [hok] at h3
        exact absurd h3 (by simp)
      · exact absurd h4 (by decide)
      · exact absurd h4 (by decide)
      · exact absurd h4 (by decide)
      · exact absurd h4 (by decide)
    · rcases extract_error_classify st url net _ hcontra with h1 | ⟨d, h2⟩ | h3 | h4 | h4 | h4 | h4
      · exact absurd (deriveDomain_error_shape _ _ h1) (by decide)
      · exact (version_error_not_iframe net d _ h2).2 rfl
      · rw [hok] at h3
        exact absurd h3 (by simp)
      · exact absurd h4 (by decide)
      · exact absurd h4 (by decide)
      · exact absurd h4 (by decide)
      · exact absurd h4 (by decide)
  · intro st url net d v hd hv hif
    unfold extract
    rw [hd, except_ok_bind, hv, except_ok_bind]
    have hget : getIframeSrc net.page =
        .error (.attributeError "NoneType object has no attribute get") := by
      unfold getIframeSrc
      rw [hif]
    rw [hget, except_error_bind]

/-- Witness for C10: at the worked example, a page status of 500 changes
nothing; the iframe-stage errors do not occur; and with no iframe in the
page the `.get`-on-`None` error is raised. -/
theorem C10_page_status_ignored_witness :
    extract st0 url0 { net1 with page := { net1.page with status_code := 500 } } =
        extract st0 url0 net1 ∧
      (extract st0 url0 net1 ≠
          .error (.attributeError "NoneType object has no attribute get") ∧
        extract st0 url0 net1 ≠ .error (.typeError "urlparse argument is None")) ∧
      extract st0 url0 net10 =
        .error (.attributeError "NoneType object has no attribute get") :=
  ⟨C10_page_status_ignored.1 st0 url0 net1 500,
   C10_page_status_ignored.2.1 st0 url0 net1 iframe1 (by rfl),
   C10_page_status_ignored.2.2 st0 url0 net10 "to" (some (.str "42")) (by rfl) (by rfl)
     (by rfl)⟩
